import Mathlib

/-!
Verification of the Miles & More statement parser (package `milesmore`) and the
YNAB CSV transformer (package `ynab`) of the moneypenny repository.

Modelling conventions for the shallow embedding:

* Go `float64` amounts are modelled as exact rationals (`Rat`); `strconv.ParseFloat`
  is modelled for finite base-10 decimal inputs (optional sign, digits, optional
  fractional part, optional decimal exponent); hexadecimal floats, infinities,
  NaN and digit-group underscores are out of scope.
* `time.Time` values carry only a calendar date here (`MDate`), which is all the
  parser reads and writes (layouts "1/2/2006", "2006-01-02", "02-01-2006").
* The Go `encoding/csv` reader is an external collaborator: its output is
  modelled as a finite list of read events, each either a delivered record
  (the list of fields of one row) or a record-level read error; the end of the
  list is `io.EOF`.
* A `context.Context` is modelled by `Option Nat`: `some k` means the context
  is observed as cancelled from the k-th cancellation check onwards, `none`
  means it is never cancelled.
* The Go `map[string]int` occurrence map is modelled as an association list
  where the most recent binding shadows older ones.
-/

/-- Calendar date (year, month, day), the only content of `time.Time` the code
uses. -/
structure MDate where
  year : Nat
  month : Nat
  day : Nat
deriving DecidableEq, Repr

/-- Leading whitespace of a character list removed. -/
def dropLeadingWS (cs : List Char) : List Char :=
  cs.dropWhile Char.isWhitespace

/-- Model of `strings.TrimSpace`: whitespace removed from both ends. -/
def trimStr (s : String) : String :=
  String.mk ((dropLeadingWS (dropLeadingWS s.toList).reverse).reverse)

/-- Model of `strings.HasPrefix`. -/
def startsWithStr (s pre : String) : Bool :=
  pre.toList.isPrefixOf s.toList

/-- Split of a character list at every occurrence of `sep` (the pieces do not
contain `sep`; n separators give n+1 pieces). -/
def splitOnChar (sep : Char) : List Char → List (List Char)
  | [] => [[]]
  | c :: t =>
    if c = sep then [] :: splitOnChar sep t
    else
      match splitOnChar sep t with
      | h :: r => (c :: h) :: r
      | [] => [[c]]

/-- Digits of a base-10 numeral folded to a `Nat`. -/
def digitsToNat (cs : List Char) : Nat :=
  cs.foldl (fun a c => a * 10 + (c.toNat - 48)) 0

/-- A non-empty all-digit character list parsed as a `Nat`, otherwise `none`. -/
def parseNatDigits (cs : List Char) : Option Nat :=
  if cs ≠ [] ∧ cs.all Char.isDigit then some (digitsToNat cs) else none

/-- Integer power with natural exponent. -/
def ipow (b : Int) : Nat → Int
  | 0 => 1
  | n + 1 => b * ipow b n

/-- Gregorian leap-year rule, as implemented by Go `time`. -/
def isLeapYear (y : Nat) : Bool :=
  (y % 4 == 0 && y % 100 != 0) || y % 400 == 0

/-- Number of days of month `m` of year `y`. -/
def daysInMonth (m y : Nat) : Nat :=
  if m = 2 then (if isLeapYear y then 29 else 28)
  else if m = 4 ∨ m = 6 ∨ m = 9 ∨ m = 11 then 30
  else 31

/-- Model of `time.Parse("1/2/2006", s)` as used by `parseDate`: month and day
with one or two digits, exactly four year digits, separated by slashes, with
Go's range validation of month and day. Returns `none` where Go returns an
error. -/
def parseDateLayout (s : String) : Option MDate :=
  match splitOnChar '/' s.toList with
  | [ms, ds, ys] =>
    match parseNatDigits ms, parseNatDigits ds, parseNatDigits ys with
    | some m, some d, some y =>
      if ms.length ≤ 2 ∧ ds.length ≤ 2 ∧ ys.length = 4 ∧
         1 ≤ m ∧ m ≤ 12 ∧ 1 ≤ d ∧ d ≤ daysInMonth m y
      then some ⟨y, m, d⟩ else none
    | _, _, _ => none
  | _ => none

/-- Leading sign of a numeral: `(negative, rest)`. -/
def splitSign : List Char → Bool × List Char
  | '-' :: t => (true, t)
  | '+' :: t => (false, t)
  | l => (false, l)

/-- Longest digit run at the front of a character list, and the rest. -/
def takeDigits : List Char → List Char × List Char
  | [] => ([], [])
  | c :: t =>
    if c.isDigit then
      let p := takeDigits t
      (c :: p.1, p.2)
    else ([], c :: t)

/-- Optional decimal exponent suffix (`e`/`E`, optional sign, digits) that must
consume the whole rest of the input; absent suffix is exponent 0. -/
def parseExpSuffix : List Char → Option Int
  | [] => some 0
  | c :: t =>
    if c = 'e' ∨ c = 'E' then
      let sg := splitSign t
      let p := takeDigits sg.2
      if p.1 ≠ [] ∧ p.2 = [] then
        some (if sg.1 then -(digitsToNat p.1 : Int) else (digitsToNat p.1 : Int))
      else none
    else none

/-- Model of `strconv.ParseFloat(s, 64)` for finite base-10 decimal inputs,
with the value kept exact as a rational. -/
def parseFloatQ (s : String) : Option Rat :=
  let sg := splitSign s.toList
  let ip := takeDigits sg.2
  let fr : List Char × List Char :=
    match ip.2 with
    | '.' :: t => takeDigits t
    | _ => ([], ip.2)
  if ip.1 = [] ∧ fr.1 = [] then none
  else
    match parseExpSuffix fr.2 with
    | none => none
    | some e =>
      let mant : Int := (digitsToNat (ip.1 ++ fr.1) : Int)
      let mant : Int := if sg.1 then -mant else mant
      let e2 : Int := e - (fr.1.length : Int)
      some (if 0 ≤ e2 then Rat.divInt (mant * ipow 10 e2.toNat) 1
        else Rat.divInt mant (ipow 10 (-e2).toNat))

/-- Substring test on character lists, mirroring `strings.Contains`. -/
def hasSubPat (p : List Char) : List Char → Bool
  | [] => p.isEmpty
  | c :: t => p.isPrefixOf (c :: t) || hasSubPat p t

/-- Model of `strings.Contains`. -/
def containsSub (s pat : String) : Bool :=
  hasSubPat pat.toList s.toList

/-- Truncation of a rational toward zero, the behaviour of Go integer
conversion `int64(x)`. -/
def ratTrunc (q : Rat) : Int :=
  Int.tdiv q.num (Int.ofNat q.den)

/-- Zero-padding to two digits, the behaviour of Go format verbs "01"/"02". -/
def pad2 (n : Nat) : String :=
  if n < 10 then "0" ++ Nat.repr n else Nat.repr n

/-- Zero-padding to four digits, the behaviour of Go year format verb "2006". -/
def pad4 (n : Nat) : String :=
  if n < 10 then "000" ++ Nat.repr n
  else if n < 100 then "00" ++ Nat.repr n
  else if n < 1000 then "0" ++ Nat.repr n
  else Nat.repr n

/-- Model of `t.Date.Format("2006-01-02")`. -/
def formatIsoDate (d : MDate) : String :=
  pad4 d.year ++ "-" ++ pad2 d.month ++ "-" ++ pad2 d.day

/-- The domain model `domain.Transaction` (struct fields of transaction.go),
with `float64` fields as exact rationals. -/
structure Transaction where
  date : MDate
  postingDate : MDate
  payee : String
  memo : String
  amount : Rat
  currency : String
  foreignAmount : Rat
  foreignCurrency : String
  exchangeRate : Rat
  importID : String
  sourceFile : String
  sourceLine : Nat
deriving DecidableEq, Repr

/-- The literal fee marker constant `feeIdentifier` of milesmore.go. -/
def feeIdentifier : String := "AUSLANDSEINSATZENTGELT"

/-- Number of columns a data row must have (`expectedColumnCount`). -/
def expectedColumnCount : Nat := 8

/-- The reason a single row fails to parse, one constructor per error return
of `parseTransaction` and its helpers `parseDate` and `parseAmount`. -/
inductive RowFault
  | invalidVoucherDate
  | invalidReceiptDate
  | payeeRequired
  | invalidAmount
deriving DecidableEq, Repr

/-- Model of milesmore `parseDate`: empty input and any non `M/D/YYYY` shape
fail. -/
def parseDate (dateStr : String) : Option MDate :=
  if dateStr = "" then none else parseDateLayout dateStr

/-- Model of milesmore `parseAmount`: empty input fails, otherwise
`strconv.ParseFloat` of the trimmed string. -/
def parseAmount (amountStr : String) : Option Rat :=
  if amountStr = "" then none else parseFloatQ (trimStr amountStr)

/-- Model of milesmore `parseExchangeRate`: the empty string parses to 0
without error; otherwise `strconv.ParseFloat`, whose failure is an error. -/
def parseExchangeRate (rateStr : String) : Except Unit Rat :=
  if rateStr = "" then Except.ok 0
  else
    match parseFloatQ (trimStr rateStr) with
    | some rate => Except.ok rate
    | none => Except.error ()

/-- Model of milesmore `parseTransaction`: builds a `Transaction` from the 8
fixed-position columns of `record`, mirroring the order of checks of the
source. Fields are read with `getD` (the caller has checked the row has at
least `expectedColumnCount` fields). -/
def parseTransaction (record : List String) (lineNumber : Nat) (sourceFile : String) :
    Except RowFault Transaction :=
  match parseDate (trimStr (record.getD 0 "")) with
  | none => Except.error RowFault.invalidVoucherDate
  | some voucherDate =>
    match parseDate (trimStr (record.getD 1 "")) with
    | none => Except.error RowFault.invalidReceiptDate
    | some receiptDate =>
      let payee := trimStr (record.getD 2 "")
      if payee = "" then Except.error RowFault.payeeRequired
      else
        match parseAmount (trimStr (record.getD 6 "")) with
        | none => Except.error RowFault.invalidAmount
        | some amount =>
          let currencyRaw := trimStr (record.getD 7 "")
          let base : Transaction :=
            { date := voucherDate
              postingDate := receiptDate
              payee := payee
              memo := ""
              amount := amount
              currency := if currencyRaw ≠ "" then currencyRaw else "EUR"
              foreignAmount := 0
              foreignCurrency := ""
              exchangeRate := 0
              importID := ""
              sourceFile := sourceFile
              sourceLine := lineNumber }
          let foreignCurrency := trimStr (record.getD 3 "")
          if foreignCurrency ≠ "" ∧ foreignCurrency ≠ "EUR" then
            let foreignAmount : Rat :=
              match parseAmount (trimStr (record.getD 4 "")) with
              | some v => v
              | none => base.foreignAmount
            let exchangeRate : Rat :=
              match parseExchangeRate (trimStr (record.getD 5 "")) with
              | Except.ok v => if 0 < v then v else base.exchangeRate
              | Except.error _ => base.exchangeRate
            Except.ok { base with
              foreignCurrency := foreignCurrency
              foreignAmount := foreignAmount
              exchangeRate := exchangeRate }
          else Except.ok base

/-- The occurrence map of `Parse`, a Go `map[string]int` as an association
list; the most recent binding of a key shadows older ones. -/
abbrev OccMap := List (String × Nat)

/-- Milliunit scaling `int64(amount * 1000)` of `generateImportID`. -/
def milliunits (amount : Rat) : Int :=
  ratTrunc (Rat.divInt (amount.num * 1000) (Int.ofNat amount.den))

/-- The occurrence-map key `fmt.Sprintf("%d:%s", milliunits, isoDate)`. -/
def importBaseKey (t : Transaction) : String :=
  (milliunits t.amount).repr ++ ":" ++ formatIsoDate t.date

/-- Model of milesmore `generateImportID`: returns the ID string and the
updated occurrence map. -/
def generateImportID (t : Transaction) (occurrenceMap : OccMap) : String × OccMap :=
  let m := milliunits t.amount
  let isoDate := formatIsoDate t.date
  let baseKey := m.repr ++ ":" ++ isoDate
  let occurrence := (occurrenceMap.lookup baseKey).getD 0 + 1
  ("YNAB:" ++ m.repr ++ ":" ++ isoDate ++ ":" ++ Nat.repr occurrence,
    (baseKey, occurrence) :: occurrenceMap)

/-- One outcome of a `csvReader.Read()` call that is not `io.EOF`: either a
delivered record or a record-level read error (self: the end of the event list
models `io.EOF`). -/
inductive ReadEvent
  | row (fields : List String)
  | readErr
deriving DecidableEq, Repr

/-- Kind of a collected row error, one constructor per `append` to
`result.Errors` in `Parse`. -/
inductive ErrKind
  | csvRead
  | tooFewColumns (got : Nat)
  | rowFault (f : RowFault)
deriving DecidableEq, Repr

/-- The `ParseError` struct: line number, raw row, error. -/
structure ParseError where
  line : Nat
  row : List String
  err : ErrKind
deriving DecidableEq, Repr

/-- The `ParseResult` struct of milesmore.go. -/
structure ParseResult where
  transactions : List Transaction
  errors : List ParseError
  totalRows : Nat
  successfulRows : Nat
deriving DecidableEq, Repr

/-- The loop-local variables of `Parse`, threaded between iterations. -/
structure ParseState where
  result : ParseResult
  lineNumber : Nat
  headerSkipped : Bool
  occurrenceMap : OccMap
  previousTransaction : Option Transaction
deriving DecidableEq, Repr

/-- The state the loop of `Parse` starts from. -/
def initState : ParseState :=
  { result := { transactions := [], errors := [], totalRows := 0, successfulRows := 0 }
    lineNumber := 0
    headerSkipped := false
    occurrenceMap := []
    previousTransaction := none }

/-- The only hard (call-aborting) error of `Parse`: the wrapped cancellation
error returned when the context is observed as done. -/
inductive HardError
  | cancelled
deriving DecidableEq, Repr

/-- Whether the context (modelled by `Option Nat`) is observed as done at the
cancellation check number `i`. -/
def ctxDone (cancelFrom : Option Nat) (i : Nat) : Bool :=
  match cancelFrom with
  | none => false
  | some k => decide (k ≤ i)

/-- The fee-association step of `Parse` (the `feeIdentifier` check against the
previous successfully parsed transaction). -/
def applyFee (previousTransaction : Option Transaction) (t : Transaction) : Transaction :=
  match previousTransaction with
  | none => t
  | some p =>
    if containsSub t.payee feeIdentifier then
      if p.foreignCurrency ≠ "" ∧ p.foreignAmount ≠ 0 then
        { t with memo := "Fee for transaction: " ++ p.payee }
      else t
    else t

/-- The body of the loop of `Parse` from the blank-row check on (the code
after the metadata/header skipping), for one delivered record. -/
def processDataRow (sourceFile : String) (st : ParseState) (record : List String) :
    ParseState :=
  if record.isEmpty || (record.length == 1 && trimStr (record.headD "") == "") then st
  else if startsWithStr (trimStr (record.headD "")) "Balance:" then st
  else if record.length < expectedColumnCount then
    { st with result := { st.result with
        errors := st.result.errors ++
          [{ line := st.lineNumber, row := record, err := ErrKind.tooFewColumns record.length }]
        totalRows := st.result.totalRows + 1 } }
  else
    match parseTransaction record st.lineNumber sourceFile with
    | Except.error f =>
      { st with result := { st.result with
          errors := st.result.errors ++
            [{ line := st.lineNumber, row := record, err := ErrKind.rowFault f }]
          totalRows := st.result.totalRows + 1 } }
    | Except.ok t =>
      let t1 := applyFee st.previousTransaction t
      let idm := generateImportID t1 st.occurrenceMap
      let t2 := { t1 with importID := idm.1 }
      { st with
        occurrenceMap := idm.2
        previousTransaction := some t2
        result := { st.result with
          transactions := st.result.transactions ++ [t2]
          totalRows := st.result.totalRows + 1
          successfulRows := st.result.successfulRows + 1 } }

/-- One iteration of the loop of `Parse` after a non-EOF `Read` outcome:
increments the line number, records a read error, or classifies the record
(metadata skip, header detection, then `processDataRow`). -/
def processRecord (sourceFile : String) (st : ParseState) (e : ReadEvent) : ParseState :=
  let ln := st.lineNumber + 1
  match e with
  | ReadEvent.readErr =>
    { st with
      lineNumber := ln
      result := { st.result with
        errors := st.result.errors ++ [{ line := ln, row := [], err := ErrKind.csvRead }] } }
  | ReadEvent.row record =>
    let st := { st with lineNumber := ln }
    if st.headerSkipped then processDataRow sourceFile st record
    else if ln ≤ 4 then st
    else if containsSub (record.headD "") "Voucher date" then
      { st with headerSkipped := true }
    else processDataRow sourceFile { st with headerSkipped := true } record

/-- The iteration of `Parse`: a cancellation check before each `Read`, then
either stop at EOF, or process the event and continue. -/
def parseLoop (cancelFrom : Option Nat) (sourceFile : String) :
    List ReadEvent → Nat → ParseState → Except HardError ParseResult
  | evs, i, st =>
    if ctxDone cancelFrom i then Except.error HardError.cancelled
    else
      match evs with
      | [] => Except.ok st.result
      | e :: rest => parseLoop cancelFrom sourceFile rest (i + 1) (processRecord sourceFile st e)

/-- Model of milesmore `Parse`: consumes the event stream of the CSV reader
starting from a fresh state (fresh occurrence map, empty result). -/
def Parse (cancelFrom : Option Nat) (events : List ReadEvent) (sourceFile : String) :
    Except HardError ParseResult :=
  parseLoop cancelFrom sourceFile events 0 initState

/-- Whether `Parse` aborted with a hard error. -/
def isHardError (r : Except HardError ParseResult) : Bool :=
  match r with
  | Except.error _ => true
  | Except.ok _ => false

/-- The sequence of import IDs of the transactions of a parse outcome (empty
when the call aborted). -/
def importIDSeq (r : Except HardError ParseResult) : List String :=
  match r with
  | Except.ok pr => pr.transactions.map (fun t => t.importID)
  | Except.error _ => []

/-- The fields of one transaction the boundary scenario of the spec talks
about: date, amount, currency, foreign currency, exchange rate. -/
def txSummary (t : Transaction) : MDate × Rat × String × String × Rat :=
  (t.date, t.amount, t.currency, t.foreignCurrency, t.exchangeRate)

/-- The summaries of the transactions of a parse outcome, in order. -/
def summarySeq (r : Except HardError ParseResult) : List (MDate × Rat × String × String × Rat) :=
  match r with
  | Except.ok pr => pr.transactions.map txSummary
  | Except.error _ => []

/-- The number of collected row errors of a parse outcome. -/
def errorCountOf (r : Except HardError ParseResult) : Nat :=
  match r with
  | Except.ok pr => pr.errors.length
  | Except.error _ => 0

/-- The fixed header row `csvHeaders` of ynab.go. -/
def csvHeaders : List String := ["Date", "Payee", "Memo", "Amount"]

/-- Model of `tx.Date.Format("02-01-2006")`, the YNAB date format DD-MM-YYYY. -/
def formatYnabDate (d : MDate) : String :=
  pad2 d.day ++ "-" ++ pad2 d.month ++ "-" ++ pad4 d.year

/-- The amount in hundredths used by `fmt.Sprintf("%.2f", amount)`: the
absolute value scaled by 100 and rounded to the nearest integer (the model
uses round-half-up on the exact rational standing in for the float64). -/
def amountCents (amount : Rat) : Nat :=
  (200 * amount.num.natAbs + amount.den) / (2 * amount.den)

/-- The two fractional digits of a formatted amount. -/
def twoDigitStr (n : Nat) : String :=
  String.mk [Nat.digitChar (n / 10), Nat.digitChar (n % 10)]

/-- Model of ynab `formatAmount`, that is `fmt.Sprintf("%.2f", amount)`. -/
def formatAmount (amount : Rat) : String :=
  (if amount < 0 then "-" else "") ++
    Nat.repr (amountCents amount / 100) ++ "." ++ twoDigitStr (amountCents amount % 100)

/-- Model of ynab `transactionToRow`. -/
def transactionToRow (tx : Transaction) : List String :=
  [formatYnabDate tx.date, tx.payee, tx.memo, formatAmount tx.amount]

/-- The errors of `TransformToCSV`: a cancellation observed at one of its
checks, or a file-creation failure (write errors of the in-memory csv writer
are not modelled). -/
inductive TransformError
  | cancelled (check : Nat)
  | createFailed
deriving DecidableEq, Repr

/-- The row loop of `TransformToCSV`: a cancellation check before each row,
then the row of `transactionToRow`. -/
def writeRowsLoop (cancelFrom : Option Nat) :
    List Transaction → Nat → Except TransformError (List (List String))
  | [], _ => Except.ok []
  | tx :: rest, i =>
    if ctxDone cancelFrom i then Except.error (TransformError.cancelled i)
    else
      match writeRowsLoop cancelFrom rest (i + 1) with
      | Except.ok rows => Except.ok (transactionToRow tx :: rows)
      | Except.error e => Except.error e

/-- Model of ynab `TransformToCSV`, with the written file abstracted to the
list of emitted rows: initial cancellation check (check 0), file creation,
the fixed header row, then one row per transaction (checks 1, 2, ...). -/
def transformToCSV (cancelFrom : Option Nat) (createFails : Bool)
    (transactions : List Transaction) : Except TransformError (List (List String)) :=
  if ctxDone cancelFrom 0 then Except.error (TransformError.cancelled 0)
  else if createFails then Except.error TransformError.createFailed
  else
    match writeRowsLoop cancelFrom transactions 1 with
    | Except.ok rows => Except.ok (csvHeaders :: rows)
    | Except.error e => Except.error e

/-- Concrete event stream of the boundary scenario: four metadata lines, the
column-header line, then twice the data row
`1/5/2026;1/5/2026;Test;;;0.00000;-10.00;EUR`. -/
def evBoundary : List ReadEvent :=
  [ReadEvent.row ["Miles & More Statement"],
   ReadEvent.row ["Card number", "XXXX"],
   ReadEvent.row ["Period", "01/2026"],
   ReadEvent.row [""],
   ReadEvent.row ["Voucher date", "Receipt date", "Payee", "Foreign currency",
     "Foreign amount", "Exchange rate", "Amount", "Currency"],
   ReadEvent.row ["1/5/2026", "1/5/2026", "Test", "", "", "0.00000", "-10.00", "EUR"],
   ReadEvent.row ["1/5/2026", "1/5/2026", "Test", "", "", "0.00000", "-10.00", "EUR"]]

theorem parseLoop_hardError_iff (c : Option Nat) (sf : String) :
    ∀ (evs : List ReadEvent) (i : Nat) (st : ParseState),
      isHardError (parseLoop c sf evs i st) = true ↔
        ∃ k, c = some k ∧ k ≤ i + evs.length := by
  intro evs
  induction evs with
  | nil =>
    intro i st
    cases c with
    | none => simp [parseLoop, ctxDone, isHardError]
    | some k =>
      by_cases h : k ≤ i
      · simp [parseLoop, ctxDone, isHardError, h]
      · simp [parseLoop, ctxDone, isHardError, h]
  | cons e rest ih =>
    intro i st
    have h2 := ih (i + 1) (processRecord sf st e)
    by_cases hd : ctxDone c i = true
    · cases c with
      | none => simp [ctxDone] at hd
      | some k =>
        have hk : k ≤ i := by simpa [ctxDone] using hd
        simp only [parseLoop, hd, if_true]
        constructor
        · intro _
          exact ⟨k, rfl, by simp only [List.length_cons]; omega⟩
        · intro _
          rfl
    · have hne : ctxDone c i = false := by simpa using hd
      have hstep : parseLoop c sf (e :: rest) i st =
          parseLoop c sf rest (i + 1) (processRecord sf st e) := by
        simp [parseLoop, hne]
      rw [hstep, h2]
      constructor
      · rintro ⟨k2, hk2, hle⟩
        exact ⟨k2, hk2, by simp only [List.length_cons]; omega⟩
      · rintro ⟨k2, hk2, hle⟩
        simp only [List.length_cons] at hle
        exact ⟨k2, hk2, by omega⟩

/-- C1: `Parse` aborts with a hard error exactly when the cancellation signal
is observed at one of its per-iteration checks (checks 0 through the length of
the stream); in particular a never-cancelled call returns a result no matter
which or how many rows fail, every row-level problem having been collected as
a soft `ParseError`. -/
theorem parse_hardError_iff_cancelled (c : Option Nat) (events : List ReadEvent) (sf : String) :
    isHardError (Parse c events sf) = true ↔ ∃ k, c = some k ∧ k ≤ events.length := by
  have h := parseLoop_hardError_iff c sf events 0 initState
  simpa using h

/-- C3: two independent `Parse` calls on byte-identical input streams produce
identical sequences of import IDs; no occurrence state survives a call, the
map being created fresh inside `Parse`. -/
theorem parse_importIDs_deterministic (c : Option Nat) (sf : String)
    (ev₁ ev₂ : List ReadEvent) (h : ev₁ = ev₂) :
    importIDSeq (Parse c ev₁ sf) = importIDSeq (Parse c ev₂ sf) := by
  rw [h]

/-- Witness for C3 at the concrete boundary stream. -/
theorem parse_importIDs_deterministic_witness :
    importIDSeq (Parse none evBoundary "stmt.csv") =
      importIDSeq (Parse none evBoundary "stmt.csv") :=
  parse_importIDs_deterministic none "stmt.csv" evBoundary evBoundary rfl

/-- C2: the import ID of every successfully parsed row is
`YNAB:<milliunits>:<isoDate>:<occurrence>` with the occurrence counter equal
to one more than the previous count of the key `(milliunits, isoDate)` (so 1
on an unseen key); on the boundary stream the two identical rows receive
occurrences 1 and 2, the first row getting
`YNAB:-10000:2026-01-05:1` with date 2026-01-05, amount -10, currency EUR, no
foreign currency and exchange rate 0. -/
theorem generateImportID_format_and_boundary :
    (∀ (t : Transaction) (m : OccMap),
        generateImportID t m =
          ("YNAB:" ++ (milliunits t.amount).repr ++ ":" ++ formatIsoDate t.date ++ ":" ++
              Nat.repr ((m.lookup (importBaseKey t)).getD 0 + 1),
            (importBaseKey t, (m.lookup (importBaseKey t)).getD 0 + 1) :: m)) ∧
      importIDSeq (Parse none evBoundary "stmt.csv") =
        ["YNAB:-10000:2026-01-05:1", "YNAB:-10000:2026-01-05:2"] ∧
      summarySeq (Parse none evBoundary "stmt.csv") =
        [(⟨2026, 1, 5⟩, -10, "EUR", "", 0), (⟨2026, 1, 5⟩, -10, "EUR", "", 0)] := by
  refine ⟨fun t m => rfl, ?_, ?_⟩
  · decide
  · decide

theorem writeRowsLoop_no_cancel (txs : List Transaction) :
    ∀ i : Nat, writeRowsLoop none txs i = Except.ok (txs.map transactionToRow) := by
  induction txs with
  | nil => intro i; rfl
  | cons tx rest ih =>
    intro i
    simp [writeRowsLoop, ctxDone, ih (i + 1)]

/-- C9: without cancellation and with a writable file, the transformer emits
exactly the fixed header row `Date,Payee,Memo,Amount` followed by one row per
transaction in order; each row renders the date as DD-MM-YYYY, the payee and
memo verbatim, and the amount with a sign, an integer part, a dot and exactly
two fractional digits. -/
theorem transformToCSV_rows (transactions : List Transaction) :
    transformToCSV none false transactions =
        Except.ok (csvHeaders :: transactions.map transactionToRow) ∧
      (∀ tx : Transaction, transactionToRow tx =
        [formatYnabDate tx.date, tx.payee, tx.memo, formatAmount tx.amount]) ∧
      ∀ amount : Rat,
        formatAmount amount = (if amount < 0 then "-" else "") ++
            Nat.repr (amountCents amount / 100) ++ "." ++
            twoDigitStr (amountCents amount % 100) ∧
          (twoDigitStr (amountCents amount % 100)).length = 2 := by
  refine ⟨?_, fun tx => rfl, fun amount => ⟨rfl, rfl⟩⟩
  simp [transformToCSV, ctxDone, writeRowsLoop_no_cancel]

/-- Whether a collected error counts as a row-level failure of a row that was
fed to per-row parsing (column-count or field-parse failures), as opposed to a
record-level read error of the underlying CSV reader. -/
def isRowLevel (k : ErrKind) : Bool :=
  match k with
  | ErrKind.csvRead => false
  | ErrKind.tooFewColumns _ => true
  | ErrKind.rowFault _ => true

/-- Number of row-level failures of an error list. -/
def rowErrorCount (es : List ParseError) : Nat :=
  (es.filter (fun e => isRowLevel e.err)).length

theorem rowErrorCount_append (es : List ParseError) (x : ParseError) :
    rowErrorCount (es ++ [x]) =
      rowErrorCount es + (if isRowLevel x.err then 1 else 0) := by
  simp only [rowErrorCount, List.filter_append, List.length_append]
  cases hx : isRowLevel x.err <;> simp [List.filter, hx]

theorem processDataRow_counts (sf : String) (st : ParseState) (record : List String)
    (h : st.result.successfulRows + rowErrorCount st.result.errors = st.result.totalRows) :
    (processDataRow sf st record).result.successfulRows +
        rowErrorCount (processDataRow sf st record).result.errors =
      (processDataRow sf st record).result.totalRows := by
  unfold processDataRow
  split
  · exact h
  · split
    · exact h
    · split
      · simp [rowErrorCount_append, isRowLevel]
        omega
      · split
        · simp [rowErrorCount_append, isRowLevel]
          omega
        · simp only []
          omega

theorem processRecord_counts (sf : String) (st : ParseState) (e : ReadEvent)
    (h : st.result.successfulRows + rowErrorCount st.result.errors = st.result.totalRows) :
    (processRecord sf st e).result.successfulRows +
        rowErrorCount (processRecord sf st e).result.errors =
      (processRecord sf st e).result.totalRows := by
  cases e with
  | readErr =>
    simp [processRecord, rowErrorCount_append, isRowLevel]
    omega
  | row record =>
    simp only [processRecord]
    split
    · exact processDataRow_counts sf _ record h
    · split
      · exact h
      · split
        · exact h
        · exact processDataRow_counts sf _ record h

theorem parseLoop_counts (c : Option Nat) (sf : String) :
    ∀ (evs : List ReadEvent) (i : Nat) (st : ParseState) (r : ParseResult),
      st.result.successfulRows + rowErrorCount st.result.errors = st.result.totalRows →
      parseLoop c sf evs i st = Except.ok r →
      r.successfulRows + rowErrorCount r.errors = r.totalRows := by
  intro evs
  induction evs with
  | nil =>
    intro i st r h hp
    simp only [parseLoop] at hp
    split at hp
    · cases hp
    · cases hp
      exact h
  | cons e rest ih =>
    intro i st r h hp
    simp only [parseLoop] at hp
    split at hp
    · cases hp
    · exact ih (i + 1) (processRecord sf st e) r (processRecord_counts sf st e h) hp

/-- C7: whenever `Parse` returns a result, the number of successfully parsed
transactions plus the number of row-level errors (errors of rows fed to
per-row parsing, excluding record-level read errors) equals the `TotalRows`
counter: no data row fed to per-row parsing is dropped without being
classified as a success or an error, and structurally skipped rows touch no
counter. -/
theorem parse_leniency_invariant (c : Option Nat) (events : List ReadEvent) (sf : String)
    (r : ParseResult) (h : Parse c events sf = Except.ok r) :
    r.successfulRows + rowErrorCount r.errors = r.totalRows :=
  parseLoop_counts c sf events 0 initState r (by simp [initState, rowErrorCount]) h

/-- Witness for C7: the leniency invariant applied to the empty stream. -/
theorem parse_leniency_invariant_witness :
    (0 : Nat) + rowErrorCount [] = 0 :=
  parse_leniency_invariant none [] "stmt.csv"
    { transactions := [], errors := [], totalRows := 0, successfulRows := 0 } rfl

theorem processDataRow_balance (sf : String) (st : ParseState) (f : String)
    (rest : List String) (h : startsWithStr (trimStr f) "Balance:" = true) :
    (processDataRow sf st (f :: rest)).result = st.result := by
  unfold processDataRow
  split
  · rfl
  · split
    · rfl
    · rename_i hno
      exact absurd h hno

/-- C8: a row whose first field, after trimming, starts with "Balance:" is
skipped silently by the per-record step of `Parse`: the result (transactions,
errors, and both row counters) is left untouched. -/
theorem balance_row_skipped (sf : String) (st : ParseState) (fields : List String)
    (f : String) (h1 : fields.head? = some f)
    (h2 : startsWithStr (trimStr f) "Balance:" = true) :
    (processRecord sf st (ReadEvent.row fields)).result = st.result := by
  cases fields with
  | nil => cases h1
  | cons a rest =>
    have ha : a = f := by
      injection h1
    subst ha
    simp only [processRecord]
    split
    · exact processDataRow_balance sf _ a rest h2
    · split
      · rfl
      · split
        · rfl
        · exact processDataRow_balance sf _ a rest h2

/-- Witness for C8 at a concrete balance row against the initial state. -/
theorem balance_row_skipped_witness :
    (processRecord "stmt.csv" initState
        (ReadEvent.row ["Balance:", "", "", "", "", "", "100.00", "EUR"])).result =
      initState.result :=
  balance_row_skipped "stmt.csv" initState _ "Balance:" rfl (by decide)

/-- The transaction a successful step appends: the parsed transaction after
fee association and import-ID assignment. -/
def finalizeTx (st : ParseState) (t : Transaction) : Transaction :=
  let t1 := applyFee st.previousTransaction t
  { t1 with importID := (generateImportID t1 st.occurrenceMap).1 }

theorem processDataRow_step_cases (sf : String) (st : ParseState) (record : List String) :
    ((processDataRow sf st record).result.transactions = st.result.transactions ∧
      (processDataRow sf st record).previousTransaction = st.previousTransaction) ∨
    ∃ t, parseTransaction record st.lineNumber sf = Except.ok t ∧
      (processDataRow sf st record).result.transactions =
        st.result.transactions ++ [finalizeTx st t] ∧
      (processDataRow sf st record).previousTransaction = some (finalizeTx st t) := by
  unfold processDataRow
  split
  · exact Or.inl ⟨rfl, rfl⟩
  · split
    · exact Or.inl ⟨rfl, rfl⟩
    · split
      · exact Or.inl ⟨rfl, rfl⟩
      · split
        · exact Or.inl ⟨rfl, rfl⟩
        · rename_i t heq
          exact Or.inr ⟨t, heq, rfl, rfl⟩

theorem processRecord_step_cases (sf : String) (st : ParseState) (e : ReadEvent) :
    ((processRecord sf st e).result.transactions = st.result.transactions ∧
      (processRecord sf st e).previousTransaction = st.previousTransaction) ∨
    ∃ record t, e = ReadEvent.row record ∧
      parseTransaction record (st.lineNumber + 1) sf = Except.ok t ∧
      (processRecord sf st e).result.transactions =
        st.result.transactions ++ [finalizeTx st t] ∧
      (processRecord sf st e).previousTransaction = some (finalizeTx st t) := by
  cases e with
  | readErr => exact Or.inl ⟨rfl, rfl⟩
  | row record =>
    simp only [processRecord]
    split
    · rcases processDataRow_step_cases sf
          { st with lineNumber := st.lineNumber + 1 } record with
        ⟨h1, h2⟩ | ⟨t, hp, h1, h2⟩
      · exact Or.inl ⟨h1, h2⟩
      · exact Or.inr ⟨record, t, rfl, hp, h1, h2⟩
    · split
      · exact Or.inl ⟨rfl, rfl⟩
      · split
        · exact Or.inl ⟨rfl, rfl⟩
        · rcases processDataRow_step_cases sf
              { st with lineNumber := st.lineNumber + 1, headerSkipped := true } record with
            ⟨h1, h2⟩ | ⟨t, hp, h1, h2⟩
          · exact Or.inl ⟨h1, h2⟩
          · exact Or.inr ⟨record, t, rfl, hp, h1, h2⟩

/-- C10: the "previous transaction" used for fee association tracks exactly
the most recent successfully parsed transaction: a step that appends no
transaction (read errors, skipped rows, failed rows) leaves it unchanged, and
a step that appends a transaction makes that transaction the new "previous",
no matter how many failing or skipped physical rows intervene. -/
theorem previous_transaction_tracking (sf : String) (st : ParseState) (e : ReadEvent) :
    ((processRecord sf st e).result.transactions = st.result.transactions →
        (processRecord sf st e).previousTransaction = st.previousTransaction) ∧
      ∀ tx : Transaction,
        (processRecord sf st e).result.transactions = st.result.transactions ++ [tx] →
        (processRecord sf st e).previousTransaction = some tx := by
  rcases processRecord_step_cases sf st e with ⟨h1, h2⟩ | ⟨record, t, _, _, h1, h2⟩
  · refine ⟨fun _ => h2, fun tx hx => ?_⟩
    have hcontra := h1.symm.trans hx
    have hlen := congrArg List.length hcontra
    simp [List.length_append] at hlen
  · constructor
    · intro hx
      have hcontra := h1.symm.trans hx
      have hlen := congrArg List.length hcontra
      simp [List.length_append] at hlen
    · intro tx hx
      have h3 := h1.symm.trans hx
      have h4 := List.append_cancel_left h3
      have h5 : finalizeTx st t = tx := by simpa using h4
      rw [h2, h5]

/-- Witness for C10: a read-error step keeps the previous transaction. -/
theorem previous_transaction_tracking_witness :
    (processRecord "stmt.csv" initState ReadEvent.readErr).previousTransaction =
      initState.previousTransaction :=
  (previous_transaction_tracking "stmt.csv" initState ReadEvent.readErr).1 rfl

theorem applyFee_payee (prev : Option Transaction) (t : Transaction) :
    (applyFee prev t).payee = t.payee := by
  unfold applyFee
  split
  · rfl
  · split
    · split
      · rfl
      · rfl
    · rfl

theorem fee_memo_ne_empty (s : String) : "Fee for transaction: " ++ s ≠ "" := by
  intro h
  have hlen := congrArg String.length h
  rw [String.length_append] at hlen
  have h21 : ("Fee for transaction: " : String).length = 21 := rfl
  have h0 : ("" : String).length = 0 := rfl
  rw [h21, h0] at hlen
  omega

theorem applyFee_memo (prev : Option Transaction) (t : Transaction)
    (hfee : containsSub t.payee feeIdentifier = true) (hmemo : t.memo = "") :
    ((applyFee prev t).memo ≠ "" ↔
        ∃ p, prev = some p ∧ p.foreignCurrency ≠ "" ∧ p.foreignAmount ≠ 0) ∧
      ∀ p, prev = some p → p.foreignCurrency ≠ "" → p.foreignAmount ≠ 0 →
        (applyFee prev t).memo = "Fee for transaction: " ++ p.payee := by
  cases prev with
  | none =>
    constructor
    · simp [applyFee, hmemo]
    · intro p hp
      cases hp
  | some p =>
    simp only [applyFee]
    rw [if_pos hfee]
    by_cases hc : p.foreignCurrency ≠ "" ∧ p.foreignAmount ≠ 0
    · rw [if_pos hc]
      constructor
      · constructor
        · intro _
          exact ⟨p, rfl, hc.1, hc.2⟩
        · intro _
          exact fee_memo_ne_empty p.payee
      · intro p2 hp2 _ _
        cases hp2
        rfl
    · rw [if_neg hc]
      constructor
      · constructor
        · intro hne
          exact absurd hmemo hne
        · rintro ⟨p2, hp2, hfc, hfa⟩
          cases hp2
          exact absurd ⟨hfc, hfa⟩ hc
      · intro p2 hp2 hfc hfa
        cases hp2
        exact absurd ⟨hfc, hfa⟩ hc

theorem parseTransaction_ok_fields (record : List String) (ln : Nat) (sf : String)
    (t : Transaction) (h : parseTransaction record ln sf = Except.ok t) :
    t.memo = "" ∧
      ((trimStr (record.getD 3 "") = "" ∨ trimStr (record.getD 3 "") = "EUR") →
        t.foreignCurrency = "" ∧ t.foreignAmount = 0 ∧ t.exchangeRate = 0) ∧
      ((trimStr (record.getD 3 "") ≠ "" ∧ trimStr (record.getD 3 "") ≠ "EUR") →
        t.foreignCurrency = trimStr (record.getD 3 "")) ∧
      (parseExchangeRate (trimStr (record.getD 5 "")) = Except.error () →
        t.exchangeRate = 0) := by
  simp only [parseTransaction] at h
  split at h
  · exact absurd h (by simp)
  · split at h
    · exact absurd h (by simp)
    · split at h
      · exact absurd h (by simp)
      · split at h
        · exact absurd h (by simp)
        · split at h
          · rename_i hcond
            cases h
            refine ⟨rfl, fun hor => ?_, fun _ => rfl, fun herr => ?_⟩
            · rcases hor with he | he
              · exact absurd he hcond.1
              · exact absurd he hcond.2
            · simp only [herr]
          · rename_i hcond
            refine ⟨by cases h; rfl, fun _ => by cases h; exact ⟨rfl, rfl, rfl⟩,
              fun hand => absurd hand hcond, fun _ => by cases h; rfl⟩

/-- C6: a successfully parsed row whose payee contains the fee marker
"AUSLANDSEINSATZENTGELT" gets a non-empty memo — the fixed string
"Fee for transaction: " followed by the previous payee — exactly when the
most recent successfully parsed transaction of the call exists and has a
non-empty foreign currency and a non-zero foreign amount; after a domestic
previous transaction, or with no previous transaction at all, the memo stays
empty. -/
theorem fee_memo_iff (sf : String) (st : ParseState) (fields : List String)
    (tx : Transaction)
    (happ : (processRecord sf st (ReadEvent.row fields)).result.transactions =
      st.result.transactions ++ [tx])
    (hfee : containsSub tx.payee feeIdentifier = true) :
    (tx.memo ≠ "" ↔ ∃ p, st.previousTransaction = some p ∧
        p.foreignCurrency ≠ "" ∧ p.foreignAmount ≠ 0) ∧
      ∀ p, st.previousTransaction = some p → p.foreignCurrency ≠ "" →
        p.foreignAmount ≠ 0 → tx.memo = "Fee for transaction: " ++ p.payee := by
  rcases processRecord_step_cases sf st (ReadEvent.row fields) with
    ⟨h1, _⟩ | ⟨record, t, _, hp, h1, _⟩
  · have hcontra := h1.symm.trans happ
    have hlen := congrArg List.length hcontra
    simp [List.length_append] at hlen
  · have h3 := h1.symm.trans happ
    have h4 := List.append_cancel_left h3
    have h5 : finalizeTx st t = tx := by simpa using h4
    subst h5
    have hfee2 := hfee
    rw [show (finalizeTx st t).payee = (applyFee st.previousTransaction t).payee from rfl,
      applyFee_payee] at hfee2
    have hmemo0 : t.memo = "" := (parseTransaction_ok_fields record _ sf t hp).1
    exact applyFee_memo st.previousTransaction t hfee2 hmemo0

/-- Concrete state for the C6 witness: five rows already consumed, header
done, no previous transaction. -/
def stFeeW : ParseState := { initState with lineNumber := 5, headerSkipped := true }

/-- Concrete fee row for the C6 witness. -/
def rowFeeW : List String :=
  ["1/6/2026", "1/6/2026", "AUSLANDSEINSATZENTGELT 1.75%", "", "", "", "-0.16", "EUR"]

/-- The transaction the C6 witness step appends. -/
def txFeeW : Transaction :=
  { date := ⟨2026, 1, 6⟩
    postingDate := ⟨2026, 1, 6⟩
    payee := "AUSLANDSEINSATZENTGELT 1.75%"
    memo := ""
    amount := Rat.divInt (-4) 25
    currency := "EUR"
    foreignAmount := 0
    foreignCurrency := ""
    exchangeRate := 0
    importID := "YNAB:-160:2026-01-06:1"
    sourceFile := "stmt.csv"
    sourceLine := 6 }

/-- Witness for C6: a fee row with no previous transaction keeps an empty
memo. -/
theorem fee_memo_iff_witness :
    (txFeeW.memo ≠ "" ↔ ∃ p, stFeeW.previousTransaction = some p ∧
        p.foreignCurrency ≠ "" ∧ p.foreignAmount ≠ 0) ∧
      ∀ p, stFeeW.previousTransaction = some p → p.foreignCurrency ≠ "" →
        p.foreignAmount ≠ 0 → txFeeW.memo = "Fee for transaction: " ++ p.payee :=
  fee_memo_iff "stmt.csv" stFeeW rowFeeW txFeeW (by decide) (by decide)

/-- Concrete stream whose data row has foreign currency "USD" and the
unparseable exchange-rate field "abc". -/
def evBadRate : List ReadEvent :=
  [ReadEvent.row ["Miles & More Statement"],
   ReadEvent.row ["Card number", "XXXX"],
   ReadEvent.row ["Period", "01/2026"],
   ReadEvent.row [""],
   ReadEvent.row ["Voucher date", "Receipt date", "Payee", "Foreign currency",
     "Foreign amount", "Exchange rate", "Amount", "Currency"],
   ReadEvent.row ["1/5/2026", "1/5/2026", "Shop", "USD", "5.00", "abc", "-10.00", "EUR"]]

/-- Counterexample to C4 as stated: the row with the non-empty, unparseable
exchange-rate field "abc" is not recorded as a row-level failure — `Parse`
collects zero errors, the row parses successfully, and the exchange rate is
silently left at its default 0. -/
theorem bad_exchange_rate_not_collected :
    errorCountOf (Parse none evBadRate "stmt.csv") = 0 ∧
      summarySeq (Parse none evBadRate "stmt.csv") =
        [(⟨2026, 1, 5⟩, -10, "EUR", "USD", 0)] :=
  ⟨by decide, by decide⟩

/-- C4 (amended): an empty exchange-rate field parses to 0 without fault, and
a non-empty field that `ParseFloat` rejects makes `parseExchangeRate` fail;
but `parseTransaction` swallows that failure: the row still parses and its
`exchangeRate` keeps the default 0 — no row error is ever recorded for a
malformed exchange rate. -/
theorem exchange_rate_leniency :
    parseExchangeRate "" = Except.ok 0 ∧
      (∀ s : String, s ≠ "" → parseFloatQ (trimStr s) = none →
        parseExchangeRate s = Except.error ()) ∧
      ∀ (record : List String) (ln : Nat) (sf : String) (t : Transaction),
        parseTransaction record ln sf = Except.ok t →
        parseExchangeRate (trimStr (record.getD 5 "")) = Except.error () →
        t.exchangeRate = 0 := by
  refine ⟨rfl, fun s hs hp => ?_,
    fun record ln sf t h herr => (parseTransaction_ok_fields record ln sf t h).2.2.2 herr⟩
  unfold parseExchangeRate
  rw [if_neg hs, hp]

/-- Concrete bad-rate row for the C4 witness. -/
def rowBadRate : List String :=
  ["1/5/2026", "1/5/2026", "Shop", "USD", "5.00", "abc", "-10.00", "EUR"]

/-- The transaction the bad-rate row parses to. -/
def txBadRate : Transaction :=
  { date := ⟨2026, 1, 5⟩
    postingDate := ⟨2026, 1, 5⟩
    payee := "Shop"
    memo := ""
    amount := -10
    currency := "EUR"
    foreignAmount := 5
    foreignCurrency := "USD"
    exchangeRate := 0
    importID := ""
    sourceFile := "stmt.csv"
    sourceLine := 6 }

/-- Witness for C4 (amended) at the concrete bad-rate row. -/
theorem exchange_rate_leniency_witness :
    parseExchangeRate "abc" = Except.error () ∧ txBadRate.exchangeRate = 0 :=
  ⟨exchange_rate_leniency.2.1 "abc" (by decide) (by decide),
    exchange_rate_leniency.2.2 rowBadRate 6 "stmt.csv" txBadRate rfl rfl⟩

/-- Concrete stream whose data row has equal foreign-currency and
settlement-currency columns ("USD" in both column 3 and column 7). -/
def evForeignEq : List ReadEvent :=
  [ReadEvent.row ["Miles & More Statement"],
   ReadEvent.row ["Card number", "XXXX"],
   ReadEvent.row ["Period", "01/2026"],
   ReadEvent.row [""],
   ReadEvent.row ["Voucher date", "Receipt date", "Payee", "Foreign currency",
     "Foreign amount", "Exchange rate", "Amount", "Currency"],
   ReadEvent.row ["1/5/2026", "1/5/2026", "Test", "USD", "5.00", "1.10", "-10.00", "USD"]]

/-- Counterexample to C5 as stated: a row whose foreign-currency column
(index 3, "USD") equals the settlement-currency column (index 7, "USD") still
gets all three foreign fields set non-default, because the code compares the
foreign-currency column against the literal "EUR", not against column 7. -/
theorem foreign_fields_set_despite_equal_currency :
    summarySeq (Parse none evForeignEq "stmt.csv") =
      [(⟨2026, 1, 5⟩, -10, "USD", "USD", Rat.divInt 11 10)] := by
  decide

/-- C5 (amended): the foreign fields are set only when the trimmed
foreign-currency column (index 3) is non-empty and differs from the literal
default settlement currency "EUR" — regardless of column 7; otherwise all
three keep their defaults, and whenever the foreign currency of the output is
non-empty it is the trimmed column 3, which is then non-empty and not
"EUR". -/
theorem foreign_fields_only_non_EUR (record : List String) (ln : Nat) (sf : String)
    (t : Transaction) (h : parseTransaction record ln sf = Except.ok t) :
    ((trimStr (record.getD 3 "") = "" ∨ trimStr (record.getD 3 "") = "EUR") →
        t.foreignCurrency = "" ∧ t.foreignAmount = 0 ∧ t.exchangeRate = 0) ∧
      (t.foreignCurrency ≠ "" →
        trimStr (record.getD 3 "") ≠ "" ∧ trimStr (record.getD 3 "") ≠ "EUR" ∧
        t.foreignCurrency = trimStr (record.getD 3 "")) := by
  obtain ⟨-, h1, h2, -⟩ := parseTransaction_ok_fields record ln sf t h
  refine ⟨h1, fun hfc => ?_⟩
  by_cases hc : trimStr (record.getD 3 "") ≠ "" ∧ trimStr (record.getD 3 "") ≠ "EUR"
  · exact ⟨hc.1, hc.2, h2 hc⟩
  · have hor : trimStr (record.getD 3 "") = "" ∨ trimStr (record.getD 3 "") = "EUR" := by
      tauto
    exact absurd (h1 hor).1 hfc

/-- Concrete domestic row for the C5 witness (empty foreign column). -/
def rowDomestic : List String :=
  ["1/5/2026", "1/5/2026", "Test", "", "", "0.00000", "-10.00", "EUR"]

/-- The transaction the domestic row parses to. -/
def txDomestic : Transaction :=
  { date := ⟨2026, 1, 5⟩
    postingDate := ⟨2026, 1, 5⟩
    payee := "Test"
    memo := ""
    amount := -10
    currency := "EUR"
    foreignAmount := 0
    foreignCurrency := ""
    exchangeRate := 0
    importID := ""
    sourceFile := "stmt.csv"
    sourceLine := 6 }

/-- Witness for C5 (amended) at the concrete domestic row. -/
theorem foreign_fields_only_non_EUR_witness :
    ((trimStr (rowDomestic.getD 3 "") = "" ∨ trimStr (rowDomestic.getD 3 "") = "EUR") →
        txDomestic.foreignCurrency = "" ∧ txDomestic.foreignAmount = 0 ∧
          txDomestic.exchangeRate = 0) ∧
      (txDomestic.foreignCurrency ≠ "" →
        trimStr (rowDomestic.getD 3 "") ≠ "" ∧ trimStr (rowDomestic.getD 3 "") ≠ "EUR" ∧
        txDomestic.foreignCurrency = trimStr (rowDomestic.getD 3 "")) :=
  foreign_fields_only_non_EUR rowDomestic 6 "stmt.csv" txDomestic rfl
